import Mathlib

/-!
Verification model of the iBMC driver utilities
(`ironic/drivers/modules/ibmc/utils.py`).

The HTTP layer is modelled as a state machine over a scripted network: the
state carries the list of outcomes the remote controller will produce for
successive wire requests, the current session token held in the transport's
outgoing `X-Auth-Token` header, the number of `renew_ibmc_session` calls
performed, and the trace of wire requests actually sent.
-/

/-- JSON values, as handled by `_load_from_json` and the response parsing. -/
inductive Json where
  | null : Json
  | bool (b : Bool) : Json
  | num (n : Int) : Json
  | str (s : String) : Json
  | arr (xs : List Json) : Json
  | obj (fields : List (String × Json)) : Json

namespace Json

/-- Python `dict.get` on a JSON object (returns `none` when the key is
absent or the value is not an object). -/
def get : Json → String → Option Json
  | .obj fields, k => (fields.find? (fun p => p.1 = k)).map (fun p => p.2)
  | _, _ => none

/-- Python truthiness of a JSON value: `None`, `False`, `0`, `''`, `[]`
and `\x7b\x7d` are falsy, everything else truthy. -/
def falsy : Json → Bool
  | .null => true
  | .bool b => !b
  | .num n => n = 0
  | .str s => s = ""
  | .arr xs => xs.isEmpty
  | .obj fields => fields.isEmpty

/-- Key membership test, Python `name in body` for a dict. -/
def hasKey (j : Json) (k : String) : Bool :=
  match j with
  | .obj fields => fields.any (fun p => p.1 = k)
  | _ => false

end Json

/-- Errors raised by the connector layer.
`reqExc st t` models `requests.exceptions.RequestException` with
`e.response.status_code = st` (`none` when `e.response is None`, i.e. a
network-level `ConnectionError`) and `e.response.text = t`.
`ibmcError m` models `exception.IBMCError`. -/
inductive RError where
  | reqExc (status : Option Nat) (text : String) : RError
  | ibmcError (msg : String) : RError
deriving Repr, DecidableEq

namespace RError

/-- The predicate of the `retrying.retry` decorator on `make_req`:
`lambda e: isinstance(e, requests.exceptions.RequestException)`. -/
def isReqExc : RError → Bool
  | .reqExc _ _ => true
  | .ibmcError _ => false

end RError

/-- An HTTP response as seen through `requests`: status code, body text,
headers and decoded JSON body. -/
structure Response where
  status : Nat
  text : String
  headers : List (String × String)
  body : Json

/-- One scripted outcome of a wire request: either the server answers with
a `Response` (whose status may still be an HTTP error), or the `requests`
library fails with no response at all (DNS/TCP/TLS failure). -/
inductive Outcome where
  | resp (r : Response) : Outcome
  | netErr (text : String) : Outcome

/-- A wire request as recorded in the trace: method, URL, the value of the
session's `X-Auth-Token` header at send time, and the `If-Match` header
if one was attached. -/
structure SentReq where
  method : String
  url : String
  token : Nat
  ifMatch : Option String
deriving Repr, DecidableEq

/-- State of an `IBMCConnector` together with the scripted network. -/
structure ConnState where
  script : List Outcome
  token : Nat
  renews : Nat
  trace : List SentReq

/-- Case-insensitive header lookup is NOT what the code does textually:
`_get_resource_etag` performs `r.headers.get('Etag') or r.headers.get('etag')`,
so we model headers as a plain association list. -/
def hdrGet (headers : List (String × String)) (k : String) : Option String :=
  (headers.find? (fun p => p.1 = k)).map (fun p => p.2)

/-- One `self._session.send(prepped)` followed by `r.raise_for_status()`:
consumes the next scripted outcome, records the wire request, and raises
`requests.exceptions.RequestException` for a missing response or an HTTP
status in the 4xx/5xx range. -/
def sendRaw (m url : String) (ifMatch : Option String) (st : ConnState) :
    Except RError Response × ConnState :=
  match st.script with
  | [] => (.error (.reqExc none "script exhausted"), st)
  | o :: rest =>
    let st' : ConnState :=
      { st with
        script := rest
        trace := st.trace ++ [⟨m, url, st.token, ifMatch⟩] }
    match o with
    | .netErr t => (.error (.reqExc none t), st')
    | .resp r =>
      if 400 ≤ r.status ∧ r.status < 600 then
        (.error (.reqExc (some r.status) r.text), st')
      else
        (.ok r, st')

/-- The error classification at the tail of `_make_req` (lines 341-368):
a caught `RequestException` whose response has status ≥ 500 is converted
into `exception.IBMCError` carrying the server-provided `response.text`;
every other `RequestException` is re-raised unchanged. -/
def classifyHttpError (m url : String) (res : Except RError Response × ConnState) :
    Except RError Response × ConnState :=
  match res with
  | (.error (.reqExc (some s) t), st) =>
    if 500 ≤ s then
      (.error (.ibmcError ("IBMC server error: method: [" ++ m ++ "], url: ["
        ++ url ++ "], " ++ t)), st)
    else
      (.error (.reqExc (some s) t), st)
  | other => other

/-- `_make_req` for a method that is not PATCH/PUT (the etag branch is
skipped): a single `send` plus error classification. -/
def make_req_body_plain (m url : String) (st : ConnState) :
    Except RError Response × ConnState :=
  classifyHttpError m url (sendRaw m url none st)

/-- The body of the decorated `make_req` (lines 305-322) around a given
`_make_req`-style body: on a `RequestException` whose response status is
exactly 401, call `renew_ibmc_session` and attempt the body exactly once
more; any other exception is re-raised. -/
def auth401Wrap (renew : ConnState → ConnState)
    (body : ConnState → Except RError Response × ConnState)
    (st : ConnState) : Except RError Response × ConnState :=
  match body st with
  | (.error (.reqExc (some 401) _), st') => body (renew st')
  | other => other

/-- The `retrying.retry` decorator with
`retry_on_exception = isinstance RequestException` and
`stop_max_attempt_number = attempts`: the body runs once; while the result
is a `RequestException` and the attempt budget is not exhausted, it runs
again. Budgets 0 and 1 both mean a single attempt, as in the library. -/
def retryCall (body : ConnState → Except RError Response × ConnState) :
    Nat → ConnState → Except RError Response × ConnState
  | n + 2, st =>
    match body st with
    | (.ok r, st') => (.ok r, st')
    | (.error e, st') =>
      if e.isReqExc then retryCall body (n + 1) st'
      else (.error e, st')
  | _, st => body st

/-- `renew_ibmc_session` (lines 285-290) in a run where the session
renewal handshake itself succeeds: `self._ibmc_session.create()` installs
a fresh token and the `X-Auth-Token` header is updated from it. The
renewal count is recorded for the theorems. -/
def renew_ibmc_session (st : ConnState) : ConnState :=
  { st with token := st.token + 1, renews := st.renews + 1 }

/-- `make_req` specialised at a method that is not PATCH/PUT, which is in
particular the exact behaviour of the `make_req('GET', url)` calls made by
`_get_resource_etag` and `IBMCSession.create`. -/
def make_req_plain (attempts : Nat) (m url : String) (st : ConnState) :
    Except RError Response × ConnState :=
  retryCall (auth401Wrap renew_ibmc_session (make_req_body_plain m url)) attempts st

/-- The etag extraction `r.headers.get('Etag') or r.headers.get('etag')`
with Python `or` semantics: an empty-string first header falls through to
the second lookup. -/
def etagOf (headers : List (String × String)) : Option String :=
  match hdrGet headers "Etag" with
  | some s => if s = "" then hdrGet headers "etag" else some s
  | none => hdrGet headers "etag"

/-- ASCII lower-casing via the character list (Python `str.lower()` for
the ASCII method names and attribute keys involved). -/
def strLower (s : String) : String := String.mk (s.toList.map Char.toLower)

/-- `_get_resource_etag` (lines 292-298): issue a (retrying) GET to the
URL, read `headers.get('Etag') or headers.get('etag')`, and raise
`IBMCError` when the resulting value is falsy. -/
def _get_resource_etag (attempts : Nat) (url : String) (st : ConnState) :
    Except RError String × ConnState :=
  match make_req_plain attempts "GET" url st with
  | (.error e, st') => (.error e, st')
  | (.ok r, st') =>
    match etagOf r.headers with
    | none => (.error (.ibmcError ("Can not get resource[" ++ url ++ "] etag")), st')
    | some s =>
      if s = "" then
        (.error (.ibmcError ("Can not get resource[" ++ url ++ "] etag")), st')
      else
        (.ok s, st')

/-- `_make_req` (lines 324-368): for PATCH/PUT, first fetch the resource
etag (itself a retrying GET) and attach it as `If-Match`; then send and
classify the error. -/
def _make_req (attempts : Nat) (m url : String) (st : ConnState) :
    Except RError Response × ConnState :=
  if strLower m = "patch" ∨ strLower m = "put" then
    match _get_resource_etag attempts url st with
    | (.error e, st') => (.error e, st')
    | (.ok etag, st') => classifyHttpError m url (sendRaw m url (some etag) st')
  else
    make_req_body_plain m url st

/-- `make_req` (lines 300-322): the 401-renewal wrapper around `_make_req`,
itself wrapped in the bounded retry of the `retrying` decorator. -/
def make_req (attempts : Nat) (m url : String) (st : ConnState) :
    Except RError Response × ConnState :=
  retryCall (auth401Wrap renew_ibmc_session (_make_req attempts m url)) attempts st

/-- `_load_from_json` (lines 575-601): walk the path through nested
objects with `body.get(item) or ` empty-dict fallback, then either return
`body[name]`, `None` (as `Json.null`) when `ignore_missing`, or raise
`IBMCError`. The Python error message also embeds a dump of the JSON
payload, which is not reproduced here. -/
def _load_from_json (j : Json) (path : List String) (im : Bool) :
    Except RError Json :=
  let name := path.getLastD ""
  let body := path.dropLast.foldl
    (fun body item =>
      match body.get item with
      | some v => if v.falsy then Json.obj [] else v
      | none => Json.obj []) j
  if body.hasKey name then
    .ok ((body.get name).getD Json.null)
  else if im then
    .ok Json.null
  else
    .error (.ibmcError ("Missing attribute " ++ String.intercalate "/" path))

/-- `IBMCSession.create` (lines 390-415): POST the credentials to
`url + '/Sessions'` through the retrying `make_req`, read the session `Id`
from the body and the token from the `X-Auth-Token` response header, then
GET the session service resource (again through `make_req`) and read
`SessionTimeout`. The expiry arithmetic on wall-clock time is not
modelled; the extracted triple is returned instead of being stored. -/
def IBMCSession_create (attempts : Nat) (url username password : String)
    (st : ConnState) :
    Except RError (Json × Option String × Json) × ConnState :=
  match make_req_plain attempts "POST" (url ++ "/Sessions") st with
  | (.error e, st') => (.error e, st')
  | (.ok r, st') =>
    match _load_from_json r.body ["Id"] false with
    | .error e => (.error e, st')
    | .ok id =>
      let token := hdrGet r.headers "X-Auth-Token"
      match make_req_plain attempts "GET" url st' with
      | (.error e, st2) => (.error e, st2)
      | (.ok r2, st2) =>
        match _load_from_json r2.body ["SessionTimeout"] false with
        | .error e => (.error e, st2)
        | .ok timeout => (.ok (id, token, timeout), st2)

/-- `SessionCache.MAX_SESSIONS`. -/
def MAX_SESSIONS : Nat := 1000

/-- `SessionCache._expire_oldest_session` (lines 167-172): when the cache
has reached `MAX_SESSIONS` entries, pop the first key of the ordered
mapping. The `OrderedDict` is modelled as an insertion-ordered
association list with unique keys. -/
def _expire_oldest_session (sessions : List (Nat × Nat)) : List (Nat × Nat) :=
  if MAX_SESSIONS ≤ sessions.length then sessions.drop 1 else sessions

/-- `SessionCache.__enter__` (lines 143-159): return the cached connector
for the identity key, or construct a fresh one (`conn`, passed in here as
the value the `IBMCService` constructor would produce after its login
handshake), expire the oldest entry if at capacity, and insert. -/
def SessionCache_enter (k : Nat) (conn : Nat) (sessions : List (Nat × Nat)) :
    Nat × List (Nat × Nat) :=
  match sessions.find? (fun p => p.1 = k) with
  | some p => (p.2, sessions)
  | none => (conn, _expire_oldest_session sessions ++ [(k, conn)])

/-- `SessionCache.__exit__` (lines 161-165): drop the identity's entry
exactly when the in-flight exception is a
`requests.exceptions.RequestException`. -/
def SessionCache_exit (k : Nat) (exc : Option RError)
    (sessions : List (Nat × Nat)) : List (Nat × Nat) :=
  match exc with
  | some (.reqExc _ _) => sessions.eraseP (fun p => p.1 = k)
  | _ => sessions

/-- Acquire a sequence of identities against the cache, keeping only the
cache state; the connector constructed for identity `k` is numbered `k`. -/
def acquireAll (ks : List Nat) (d : List (Nat × Nat)) : List (Nat × Nat) :=
  ks.foldl (fun d k => (SessionCache_enter k k d).2) d

/-- A string-valued JSON leaf, as used when a loaded field is interpolated
into a URL with `'%s%s'`; non-string identifiers are not modelled. -/
def Json.asStr : Json → String
  | .str s => s
  | _ => ""

/-- The decoded state of an `IBMCSystem` after `get()` (lines 485-496). -/
structure SysModel where
  real_id : String
  json : Json
  power_state : Json
  boot : Json
  reset_path : Json
  bios_path : Json

/-- `IBMCSystem.get` (lines 485-496): fetch the system snapshot and decode
`PowerState`, `Boot` and the reset target (required) and the BIOS link
(optional). -/
def IBMCSystem_get (attempts : Nat) (address real_id : String)
    (st : ConnState) : Except RError SysModel × ConnState :=
  match make_req_plain attempts "GET" (address ++ real_id) st with
  | (.error e, st') => (.error e, st')
  | (.ok r, st') =>
    match _load_from_json r.body ["PowerState"] false with
    | .error e => (.error e, st')
    | .ok power =>
      match _load_from_json r.body ["Boot"] false with
      | .error e => (.error e, st')
      | .ok boot =>
        match _load_from_json r.body ["Actions", "#ComputerSystem.Reset", "target"] false with
        | .error e => (.error e, st')
        | .ok reset =>
          match _load_from_json r.body ["Bios", "@odata.id"] true with
          | .error e => (.error e, st')
          | .ok bios =>
            (.ok ⟨real_id, r.body, power, boot, reset, bios⟩, st')

/-- The head of a JSON array, Python `systems[0]` (only reached after the
array has been checked non-falsy). -/
def Json.headArr : Json → Json
  | .arr (x :: _) => x
  | _ => .null

/-- `IBMCSystem.__init__` (lines 439-466): with a falsy identifier (absent
or empty), GET the systems collection, require a non-empty `Members` list
and take the first member's `@odata.id`; otherwise use the given
identifier. Then fetch the snapshot via `get()`. -/
def IBMCSystem_init (attempts : Nat) (id : Option String)
    (address systems_path : String) (st : ConnState) :
    Except RError SysModel × ConnState :=
  if id.getD "" = "" then
    match make_req_plain attempts "GET" (address ++ systems_path) st with
    | (.error e, st') => (.error e, st')
    | (.ok r, st') =>
      match _load_from_json r.body ["Members"] false with
      | .error e => (.error e, st')
      | .ok systems =>
        if systems.falsy then
          (.error (.ibmcError "No system available"), st')
        else
          match _load_from_json systems.headArr ["@odata.id"] false with
          | .error e => (.error e, st')
          | .ok rid => IBMCSystem_get attempts address rid.asStr st'
  else
    IBMCSystem_get attempts address (id.getD "") st

/-- `IBMCSystem._BOOT_SEQUENCE_MAP` (lines 433-437). -/
def _BOOT_SEQUENCE_MAP : List (String × String) :=
  [("HardDiskDrive", "Hdd"), ("DVDROMDrive", "Cd"), ("PXE", "Pxe")]

/-- `IBMCSystem._boot_seq_v5tov3` (lines 571-572):
`self._BOOT_SEQUENCE_MAP.get(t, t)` — only string codes can match the
string-keyed table, every other value is returned unchanged. -/
def _boot_seq_v5tov3 (boot_types : List Json) : List Json :=
  boot_types.map fun t =>
    match t with
    | .str s =>
      match _BOOT_SEQUENCE_MAP.find? (fun p => p.1 = s) with
      | some p => .str p.2
      | none => t
    | _ => t

/-- Lexicographic (code-point) comparison of strings, the order Python
`sorted` uses on the attribute keys. -/
def lexLe : List Char → List Char → Bool
  | [], _ => true
  | _ :: _, [] => false
  | a :: as, b :: bs => if a = b then lexLe as bs else decide (a < b)

/-- Insertion of a string into a sorted list, for Python `sorted` on
string keys (lexicographic by code point). -/
def insertSorted (s : String) : List String → List String
  | [] => [s]
  | t :: ts => if lexLe s.toList t.toList then s :: t :: ts else t :: insertSorted s ts

/-- Python `sorted` on a list of strings. -/
def sortStrings (l : List String) : List String := l.foldr insertSorted []

/-- The keys of a JSON object, Python `attrs.keys()` (the BIOS attributes
are always decoded as an object). -/
def Json.objKeys : Json → List String
  | .obj fields => fields.map (fun p => p.1)
  | _ => []

/-- `IBMCSystem.bios` (lines 512-515): GET the BIOS sub-resource and
decode its `Attributes` field. -/
def IBMCSystem_bios (attempts : Nat) (address : String) (sys : SysModel)
    (st : ConnState) : Except RError Json × ConnState :=
  match make_req_plain attempts "GET" (address ++ sys.bios_path.asStr) st with
  | (.error e, st') => (.error e, st')
  | (.ok r, st') => (_load_from_json r.body ["Attributes"] false, st')

/-- `IBMCSystem.boot_sequence` (lines 557-569): return the vendor field
`Oem/Huawei/BootupSequence` of the snapshot if truthy; otherwise GET the
BIOS attributes, select the keys whose lower-cased form starts with
`boottypeorder`, sort them, take their values, and translate through
`_BOOT_SEQUENCE_MAP`. -/
def IBMCSystem_boot_sequence (attempts : Nat) (address : String)
    (sys : SysModel) (st : ConnState) : Except RError Json × ConnState :=
  match _load_from_json sys.json ["Oem", "Huawei", "BootupSequence"] true with
  | .error e => (.error e, st)
  | .ok v =>
    if ¬ v.falsy then
      (.ok v, st)
    else
      match IBMCSystem_bios attempts address sys st with
      | (.error e, st') => (.error e, st')
      | (.ok attrs, st') =>
        let keys := attrs.objKeys.filter
          (fun k => "boottypeorder".toList.isPrefixOf (strLower k).toList)
        let seq := (sortStrings keys).map (fun t => (attrs.get t).getD Json.null)
        (.ok (.arr (_boot_seq_v5tov3 seq)), st')

/-! ### Address parsing (`parse_driver_info`, lines 79-96)

`rfc3986.uri_reference` splits the input with the RFC 3986 appendix-B
regular expression; `is_valid(require_scheme=True, require_authority=True)`
then checks the scheme and authority (and the well-formedness of the
remaining present components). The splitter and the validation rules are
modelled below; percent-encoding of the path/query/fragment performed by
the library on construction means those components can only be rejected
for characters the encoder preserves verbatim but the component grammars
exclude (the bracket gen-delims). IP-literal (bracketed) hosts and the
exact userinfo grammar are not modelled. -/

namespace Uri

/-- A split URI reference: absent components are `none`; an empty
authority (as in `https:///x`) is `some ""`. -/
structure Ref where
  scheme : Option String
  authority : Option String
  path : String
  query : Option String
  fragment : Option String

/-- Characters terminating the scheme candidate in `([^:/?#]+):`. -/
def schemeStop (c : Char) : Bool := c = ':' ∨ c = '/' ∨ c = '?' ∨ c = '#'

/-- The appendix-B split
`^(([^:/?#]+):)?(//([^/?#]*))?([^?#]*)(\?([^#]*))?(#(.*))?`. -/
def uriSplit (s : String) : Ref :=
  let cs := s.toList
  let pre := cs.takeWhile (fun c => ¬ schemeStop c)
  let (scheme, rest) :=
    match cs.drop pre.length with
    | ':' :: r => if pre.isEmpty then (none, cs) else (some (String.mk pre), r)
    | _ => (none, cs)
  let (authority, rest2) :=
    match rest with
    | '/' :: '/' :: r =>
      let a := r.takeWhile (fun c => ¬ (c = '/' ∨ c = '?' ∨ c = '#'))
      (some (String.mk a), r.drop a.length)
    | _ => (none, rest)
  let p := rest2.takeWhile (fun c => ¬ (c = '?' ∨ c = '#'))
  let rest3 := rest2.drop p.length
  let (query, rest4) :=
    match rest3 with
    | '?' :: r =>
      let q := r.takeWhile (fun c => ¬ c = '#')
      (some (String.mk q), r.drop q.length)
    | _ => (none, rest3)
  let fragment :=
    match rest4 with
    | '#' :: r => some (String.mk r)
    | _ => none
  ⟨scheme, authority, String.mk p, query, fragment⟩

/-- `scheme = ALPHA *( ALPHA / DIGIT / "+" / "-" / "." )`. -/
def schemeOk (s : String) : Bool :=
  match s.toList with
  | [] => false
  | c :: rest =>
    c.isAlpha ∧ rest.all (fun d => d.isAlphanum ∨ d = '+' ∨ d = '.' ∨ d = '-')

/-- RFC 3986 `unreserved`. -/
def unreservedChar (c : Char) : Bool :=
  c.isAlphanum ∨ c = '-' ∨ c = '.' ∨ c = '_' ∨ c = '~'

/-- RFC 3986 `sub-delims` (the apostrophe written by code point). -/
def subDelimChar (c : Char) : Bool :=
  "!$&()*+,;=".toList.contains c ∨ c.toNat = 39

/-- A `reg-name` character (percent signs admitted without checking the
following hex digits). -/
def regNameChar (c : Char) : Bool :=
  unreservedChar c ∨ subDelimChar c ∨ c = '%'

/-- Authority validation under `require_authority=True`: strip an optional
`userinfo@`, then demand a non-empty `reg-name` host and a numeric port.
An empty authority is invalid (the observed library behaviour, exercised
by the repository's own `/banana!` test). -/
def authorityOk (a : String) : Bool :=
  let cs := a.toList
  let hostport := if cs.contains '@' then (cs.dropWhile (fun c => ¬ c = '@')).drop 1 else cs
  let host := hostport.takeWhile (fun c => ¬ c = ':')
  let port := hostport.drop host.length
  !host.isEmpty && host.all regNameChar &&
    (match port with
     | [] => true
     | _ :: ds => ds.all Char.isDigit)

/-- Validity of a present path/query/fragment component after the
library's construction-time percent-encoding: every character either
survives encoding because it is reserved or unreserved, or is rewritten
to a percent triplet; of the survivors only the bracket gen-delims are
excluded by the component grammars. -/
def componentOk : Option String → Bool
  | none => true
  | some s => s.toList.all (fun c => ¬ (c = '[' ∨ c = ']'))

/-- `parsed.is_valid(require_scheme=True, require_authority=True)`. -/
def is_valid (r : Ref) : Bool :=
  (match r.scheme with | some s => schemeOk s | none => false) &&
  (match r.authority with | some a => authorityOk a | none => false) &&
  componentOk (some r.path) && componentOk r.query && componentOk r.fragment

end Uri

/-- Python falsiness of an optional string component (`not parsed.scheme`):
absent or empty. -/
def pyFalsyComp : Option String → Bool
  | none => true
  | some s => s = ""

/-- The address-validation portion of `parse_driver_info` (lines 79-96):
parse the address; if the scheme or the authority is falsy, prepend
`https://` and re-parse; finally require a valid URI with scheme and
authority, returning the (possibly prefixed) address string, or `none`
for `InvalidParameterValue`. -/
def parse_driver_info_address (address : String) : Option String :=
  let parsed := Uri.uriSplit address
  let ap :=
    if pyFalsyComp parsed.scheme ∨ pyFalsyComp parsed.authority then
      ("https://" ++ address, Uri.uriSplit ("https://" ++ address))
    else
      (address, parsed)
  if Uri.is_valid ap.2 then some ap.1 else none

/-! ### General lemmas about the retrying request layer -/

theorem retryCall_of_ok {body : ConnState → Except RError Response × ConnState}
    {st st' : ConnState} {r : Response} (h : body st = (.ok r, st')) :
    ∀ N, retryCall body N st = (.ok r, st')
  | 0 => by simp [retryCall, h]
  | 1 => by simp [retryCall, h]
  | _ + 2 => by simp [retryCall, h]

theorem retryCall_of_fatal {body : ConnState → Except RError Response × ConnState}
    {st st' : ConnState} {e : RError} (h : body st = (.error e, st'))
    (he : e.isReqExc = false) :
    ∀ N, retryCall body N st = (.error e, st')
  | 0 => by simp [retryCall, h]
  | 1 => by simp [retryCall, h]
  | _ + 2 => by simp [retryCall, h, he]

theorem retryCall_step {body : ConnState → Except RError Response × ConnState}
    {st st' : ConnState} {e : RError} {n : Nat} (h : body st = (.error e, st'))
    (he : e.isReqExc = true) :
    retryCall body (n + 2) st = retryCall body (n + 1) st' := by
  simp [retryCall, h, he]

theorem retryCall_congr {b₁ b₂ : ConnState → Except RError Response × ConnState}
    (h : ∀ s, b₁ s = b₂ s) : ∀ N st, retryCall b₁ N st = retryCall b₂ N st
  | 0, st => by simp [retryCall, h st]
  | 1, st => by simp [retryCall, h st]
  | n + 2, st => by
    rcases hb : b₂ st with ⟨res, st'⟩
    rcases res with e | r
    · by_cases he : e.isReqExc = true
      · rw [retryCall_step ((h st).trans hb) he, retryCall_step hb he,
          retryCall_congr h (n + 1) st']
      · simp only [Bool.not_eq_true] at he
        rw [retryCall_of_fatal ((h st).trans hb) he, retryCall_of_fatal hb he]
    · simp [retryCall, h st, hb]

theorem make_req_body_plain_of_netErr (m url : String) {t : String} {rest : List Outcome}
    {st : ConnState} (hs : st.script = .netErr t :: rest) :
    make_req_body_plain m url st =
      (.error (.reqExc none t),
       { st with script := rest, trace := st.trace ++ [⟨m, url, st.token, none⟩] }) := by
  simp [make_req_body_plain, sendRaw, classifyHttpError, hs]

theorem make_req_body_plain_of_ok {m url : String} {r : Response}
    {rest : List Outcome} {st : ConnState} (hs : st.script = .resp r :: rest)
    (hr : r.status < 400) :
    make_req_body_plain m url st =
      (.ok r, { st with script := rest, trace := st.trace ++ [⟨m, url, st.token, none⟩] }) := by
  have hcond : ¬(400 ≤ r.status ∧ r.status < 600) := by omega
  simp [make_req_body_plain, sendRaw, classifyHttpError, hs, hcond]

theorem make_req_body_plain_of_500 {m url : String} {r : Response}
    {rest : List Outcome} {st : ConnState} (hs : st.script = .resp r :: rest)
    (h5 : 500 ≤ r.status) (h6 : r.status < 600) :
    make_req_body_plain m url st =
      (.error (.ibmcError ("IBMC server error: method: [" ++ m ++ "], url: ["
         ++ url ++ "], " ++ r.text)),
       { st with script := rest, trace := st.trace ++ [⟨m, url, st.token, none⟩] }) := by
  have hcond : 400 ≤ r.status ∧ r.status < 600 := by omega
  simp [make_req_body_plain, sendRaw, classifyHttpError, hs, hcond, h5]

theorem make_req_body_plain_of_401 {m url : String} {r : Response}
    {rest : List Outcome} {st : ConnState} (hs : st.script = .resp r :: rest)
    (hr : r.status = 401) :
    make_req_body_plain m url st =
      (.error (.reqExc (some 401) r.text),
       { st with script := rest, trace := st.trace ++ [⟨m, url, st.token, none⟩] }) := by
  simp [make_req_body_plain, sendRaw, classifyHttpError, hs, hr]

theorem auth401Wrap_of_ok {renew : ConnState → ConnState}
    {body : ConnState → Except RError Response × ConnState}
    {st st' : ConnState} {r : Response} (h : body st = (.ok r, st')) :
    auth401Wrap renew body st = (.ok r, st') := by
  unfold auth401Wrap; rw [h]

theorem auth401Wrap_of_connErr (renew : ConnState → ConnState)
    {body : ConnState → Except RError Response × ConnState}
    {st st' : ConnState} {t : String} (h : body st = (.error (.reqExc none t), st')) :
    auth401Wrap renew body st = (.error (.reqExc none t), st') := by
  unfold auth401Wrap; rw [h]

theorem auth401Wrap_of_ibmcError {renew : ConnState → ConnState}
    {body : ConnState → Except RError Response × ConnState}
    {st st' : ConnState} {msg : String} (h : body st = (.error (.ibmcError msg), st')) :
    auth401Wrap renew body st = (.error (.ibmcError msg), st') := by
  unfold auth401Wrap; rw [h]

theorem auth401Wrap_of_401 {renew : ConnState → ConnState}
    {body : ConnState → Except RError Response × ConnState}
    {st st' : ConnState} {t : String}
    (h : body st = (.error (.reqExc (some 401) t), st')) :
    auth401Wrap renew body st = body (renew st') := by
  unfold auth401Wrap; rw [h]

theorem _make_req_nonmut {attempts : Nat} {m url : String} {st : ConnState}
    (hm : ¬(strLower m = "patch" ∨ strLower m = "put")) :
    _make_req attempts m url st = make_req_body_plain m url st := by
  simp [_make_req, hm]

/-- For a method without the etag prefetch, `make_req` coincides with its
specialisation `make_req_plain` (the attempt budget occurring inside
`_make_req` is irrelevant there). -/
theorem make_req_eq_plain {m url : String}
    (hm : ¬(strLower m = "patch" ∨ strLower m = "put"))
    (N : Nat) (st : ConnState) :
    make_req N m url st = make_req_plain N m url st := by
  have hf : _make_req N m url = make_req_body_plain m url :=
    funext (fun s => _make_req_nonmut hm)
  unfold make_req make_req_plain
  rw [hf]

theorem make_req_plain_of_ok_head {attempts : Nat} {m url : String}
    {st : ConnState} {r : Response} {rest : List Outcome}
    (hs : st.script = .resp r :: rest) (hr : r.status < 400) :
    make_req_plain attempts m url st =
      (.ok r, { st with script := rest, trace := st.trace ++ [⟨m, url, st.token, none⟩] }) := by
  unfold make_req_plain
  exact retryCall_of_ok (auth401Wrap_of_ok (make_req_body_plain_of_ok hs hr)) attempts

theorem make_req_plain_of_500_head {attempts : Nat} {m url : String}
    {st : ConnState} {r : Response} {rest : List Outcome}
    (hs : st.script = .resp r :: rest) (h5 : 500 ≤ r.status) (h6 : r.status < 600) :
    make_req_plain attempts m url st =
      (.error (.ibmcError ("IBMC server error: method: [" ++ m ++ "], url: ["
         ++ url ++ "], " ++ r.text)),
       { st with script := rest, trace := st.trace ++ [⟨m, url, st.token, none⟩] }) := by
  unfold make_req_plain
  exact retryCall_of_fatal
    (auth401Wrap_of_ibmcError (make_req_body_plain_of_500 hs h5 h6)) rfl attempts

theorem make_req_plain_netErr_run (m url : String) :
    ∀ (texts : List String) (t : String) (rest : List Outcome) (st : ConnState),
      st.script = texts.map Outcome.netErr ++ Outcome.netErr t :: rest →
      make_req_plain (texts.length + 1) m url st =
        (.error (.reqExc none t),
         { st with script := rest,
                   trace := st.trace ++
                     List.replicate (texts.length + 1) ⟨m, url, st.token, none⟩ })
  | [], t, rest, st, hs => by
      simp only [List.map_nil, List.nil_append] at hs
      have hb := auth401Wrap_of_connErr renew_ibmc_session
        (make_req_body_plain_of_netErr m url hs)
      simp [make_req_plain, retryCall, hb, List.replicate]
  | a :: texts, t, rest, st, hs => by
      simp only [List.map_cons, List.cons_append] at hs
      have hb := auth401Wrap_of_connErr renew_ibmc_session
        (make_req_body_plain_of_netErr m url hs)
      unfold make_req_plain
      rw [show (a :: texts).length + 1 = texts.length + 2 from by simp]
      rw [retryCall_step hb rfl]
      have IH := make_req_plain_netErr_run m url texts t rest
        { st with script := texts.map Outcome.netErr ++ Outcome.netErr t :: rest,
                  trace := st.trace ++ [⟨m, url, st.token, none⟩] } rfl
      unfold make_req_plain at IH
      rw [IH]
      simp [List.replicate_succ, List.append_assoc]

theorem make_req_plain_success_run (m url : String) :
    ∀ (texts : List String) (N : Nat) (r : Response) (rest : List Outcome) (st : ConnState),
      texts.length < N → r.status < 400 →
      st.script = texts.map Outcome.netErr ++ Outcome.resp r :: rest →
      make_req_plain N m url st =
        (.ok r,
         { st with script := rest,
                   trace := st.trace ++
                     List.replicate (texts.length + 1) ⟨m, url, st.token, none⟩ })
  | [], N, r, rest, st, _, hr, hs => by
      simp only [List.map_nil, List.nil_append] at hs
      rw [make_req_plain_of_ok_head hs hr]
      simp [List.replicate]
  | a :: texts, N, r, rest, st, hN, hr, hs => by
      obtain ⟨n, rfl⟩ : ∃ n, N = n + 2 := ⟨N - 2, by simp at hN; omega⟩
      simp only [List.map_cons, List.cons_append] at hs
      have hb := auth401Wrap_of_connErr renew_ibmc_session
        (make_req_body_plain_of_netErr m url hs)
      unfold make_req_plain
      rw [retryCall_step hb rfl]
      have IH := make_req_plain_success_run m url texts (n + 1) r rest
        { st with script := texts.map Outcome.netErr ++ Outcome.resp r :: rest,
                  trace := st.trace ++ [⟨m, url, st.token, none⟩] }
        (by simp at hN ⊢; omega) hr rfl
      unfold make_req_plain at IH
      rw [IH]
      simp [List.replicate_succ, List.append_assoc]

theorem send_classified_of_ok {m url : String} (im : Option String)
    {st : ConnState} {r : Response} {rest : List Outcome}
    (hs : st.script = .resp r :: rest) (hr : r.status < 400) :
    classifyHttpError m url (sendRaw m url im st) =
      (.ok r, { st with script := rest, trace := st.trace ++ [⟨m, url, st.token, im⟩] }) := by
  have hcond : ¬(400 ≤ r.status ∧ r.status < 600) := by omega
  simp [sendRaw, classifyHttpError, hs, hcond]

theorem send_classified_of_500 {m url : String} (im : Option String)
    {st : ConnState} {r : Response} {rest : List Outcome}
    (hs : st.script = .resp r :: rest) (h5 : 500 ≤ r.status) (h6 : r.status < 600) :
    classifyHttpError m url (sendRaw m url im st) =
      (.error (.ibmcError ("IBMC server error: method: [" ++ m ++ "], url: ["
         ++ url ++ "], " ++ r.text)),
       { st with script := rest, trace := st.trace ++ [⟨m, url, st.token, im⟩] }) := by
  have hcond : 400 ≤ r.status ∧ r.status < 600 := by omega
  simp [sendRaw, classifyHttpError, hs, hcond, h5]

theorem _get_resource_etag_of_ok {attempts : Nat} {url : String}
    {st : ConnState} {r : Response} {rest : List Outcome} {e : String}
    (hs : st.script = .resp r :: rest) (hr : r.status < 400)
    (he : etagOf r.headers = some e) (hne : e ≠ "") :
    _get_resource_etag attempts url st =
      (.ok e, { st with script := rest, trace := st.trace ++ [⟨"GET", url, st.token, none⟩] }) := by
  unfold _get_resource_etag
  rw [make_req_plain_of_ok_head hs hr]
  simp [he, hne]

theorem _get_resource_etag_of_missing {attempts : Nat} {url : String}
    {st : ConnState} {r : Response} {rest : List Outcome}
    (hs : st.script = .resp r :: rest) (hr : r.status < 400)
    (he : etagOf r.headers = none ∨ etagOf r.headers = some "") :
    _get_resource_etag attempts url st =
      (.error (.ibmcError ("Can not get resource[" ++ url ++ "] etag")),
       { st with script := rest, trace := st.trace ++ [⟨"GET", url, st.token, none⟩] }) := by
  unfold _get_resource_etag
  rw [make_req_plain_of_ok_head hs hr]
  rcases he with he | he <;> simp [he]

/-! ### Claim theorems -/

/-- C2: through `make_req` with attempt budget `N` (for a method without
the etag prefetch): if the first `N` wire outcomes are network-class
(`requests`-layer) failures, the request is sent exactly `N` times and the
last error surfaces to the caller; if after `k < N` such failures the next
outcome is a success, the response is returned after exactly `k + 1` sends
and no error surfaces. -/
theorem claimC2_retry_budget (m url : String)
    (hm : ¬(strLower m = "patch" ∨ strLower m = "put")) :
    (∀ (texts : List String) (t : String) (rest : List Outcome) (st : ConnState),
      st.script = texts.map Outcome.netErr ++ [Outcome.netErr t] ++ rest →
      make_req (texts.length + 1) m url st =
        (.error (.reqExc none t),
         { st with script := rest,
                   trace := st.trace ++
                     List.replicate (texts.length + 1) ⟨m, url, st.token, none⟩ })) ∧
    (∀ (texts : List String) (N : Nat) (r : Response) (rest : List Outcome) (st : ConnState),
      texts.length < N → r.status < 400 →
      st.script = texts.map Outcome.netErr ++ [Outcome.resp r] ++ rest →
      make_req N m url st =
        (.ok r,
         { st with script := rest,
                   trace := st.trace ++
                     List.replicate (texts.length + 1) ⟨m, url, st.token, none⟩ })) := by
  constructor
  · intro texts t rest st hs
    rw [make_req_eq_plain hm]
    exact make_req_plain_netErr_run m url texts t rest st (by simpa using hs)
  · intro texts N r rest st hN hr hs
    rw [make_req_eq_plain hm]
    exact make_req_plain_success_run m url texts N r rest st hN hr (by simpa using hs)

/-- Witness for C2 at a concrete input: budget 3 with three connection
failures surfaces the last error after exactly 3 sends; budget 5 with two
failures then a success returns the response after exactly 3 sends. -/
theorem claimC2_witness :
    make_req 3 "GET" "https://bmc/x" ⟨[.netErr "a", .netErr "b", .netErr "c"], 0, 0, []⟩ =
      (.error (.reqExc none "c"),
       ⟨[], 0, 0, List.replicate 3 ⟨"GET", "https://bmc/x", 0, none⟩⟩) ∧
    make_req 5 "GET" "https://bmc/x"
        ⟨[.netErr "a", .netErr "b", .resp ⟨200, "ok", [], .null⟩], 0, 0, []⟩ =
      (.ok ⟨200, "ok", [], .null⟩,
       ⟨[], 0, 0, List.replicate 3 ⟨"GET", "https://bmc/x", 0, none⟩⟩) := by
  constructor
  · exact (claimC2_retry_budget "GET" "https://bmc/x" (by decide)).1 ["a", "b"] "c" [] _ rfl
  · exact (claimC2_retry_budget "GET" "https://bmc/x" (by decide)).2 ["a", "b"] 5
      ⟨200, "ok", [], .null⟩ [] _ (by decide) (by decide) rfl

/-- C3: a response with status ≥ 500 is turned into a domain `IBMCError`
whose message embeds the server-provided payload text, and it is never
retried: for every attempt budget exactly one wire request is consumed
(for the mutating verbs, the 500 arises on the mutating send after the
etag GET, and again no further attempt follows). -/
theorem claimC3_server_error :
    (∀ (attempts : Nat) (m url : String) (st : ConnState) (r : Response)
        (rest : List Outcome),
      ¬(strLower m = "patch" ∨ strLower m = "put") →
      st.script = .resp r :: rest → 500 ≤ r.status → r.status < 600 →
      make_req attempts m url st =
        (.error (.ibmcError ("IBMC server error: method: [" ++ m ++ "], url: ["
           ++ url ++ "], " ++ r.text)),
         { st with script := rest, trace := st.trace ++ [⟨m, url, st.token, none⟩] })) ∧
    (∀ (attempts : Nat) (m url : String) (st : ConnState) (rGet r : Response)
        (e : String) (rest : List Outcome),
      (strLower m = "patch" ∨ strLower m = "put") →
      st.script = .resp rGet :: .resp r :: rest → rGet.status < 400 →
      etagOf rGet.headers = some e → e ≠ "" →
      500 ≤ r.status → r.status < 600 →
      make_req attempts m url st =
        (.error (.ibmcError ("IBMC server error: method: [" ++ m ++ "], url: ["
           ++ url ++ "], " ++ r.text)),
         { st with script := rest,
                   trace := st.trace ++ [⟨"GET", url, st.token, none⟩,
                     ⟨m, url, st.token, some e⟩] })) := by
  constructor
  · intro attempts m url st r rest hm hs h5 h6
    rw [make_req_eq_plain hm]
    exact make_req_plain_of_500_head hs h5 h6
  · intro attempts m url st rGet r e rest hmut hs hg he hne h5 h6
    have hbody : _make_req attempts m url st =
        (.error (.ibmcError ("IBMC server error: method: [" ++ m ++ "], url: ["
           ++ url ++ "], " ++ r.text)),
         { st with script := rest,
                   trace := st.trace ++ [⟨"GET", url, st.token, none⟩,
                     ⟨m, url, st.token, some e⟩] }) := by
      unfold _make_req
      rw [if_pos hmut, _get_resource_etag_of_ok hs hg he hne]
      show classifyHttpError m url (sendRaw m url (some e)
        { st with script := Outcome.resp r :: rest,
                  trace := st.trace ++ [⟨"GET", url, st.token, none⟩] }) = _
      rw [send_classified_of_500 (some e) rfl h5 h6]
      simp
    unfold make_req
    exact retryCall_of_fatal (auth401Wrap_of_ibmcError hbody) rfl attempts

/-- Witness for C3: a 500 with payload text is not retried even with a
large budget, for a GET and for a PATCH after its etag GET. -/
theorem claimC3_witness :
    make_req 7 "GET" "https://bmc/x"
        ⟨[.resp ⟨503, "payload", [], .null⟩, .netErr "later"], 0, 0, []⟩ =
      (.error (.ibmcError "IBMC server error: method: [GET], url: [https://bmc/x], payload"),
       ⟨[.netErr "later"], 0, 0, [⟨"GET", "https://bmc/x", 0, none⟩]⟩) ∧
    make_req 7 "PATCH" "https://bmc/x"
        ⟨[.resp ⟨200, "", [("Etag", "abc")], .null⟩, .resp ⟨500, "boom", [], .null⟩], 0, 0, []⟩ =
      (.error (.ibmcError "IBMC server error: method: [PATCH], url: [https://bmc/x], boom"),
       ⟨[], 0, 0, [⟨"GET", "https://bmc/x", 0, none⟩, ⟨"PATCH", "https://bmc/x", 0, some "abc"⟩]⟩) := by
  constructor
  · exact claimC3_server_error.1 7 "GET" "https://bmc/x" _ ⟨503, "payload", [], .null⟩
      [.netErr "later"] (by decide) rfl (by decide) (by decide)
  · exact claimC3_server_error.2 7 "PATCH" "https://bmc/x" _
      ⟨200, "", [("Etag", "abc")], .null⟩ ⟨500, "boom", [], .null⟩ "abc" []
      (by decide) rfl (by decide) (by decide) (by decide) (by decide) (by decide)

/-- C4: for PATCH/PUT, `make_req` first issues a GET to the same URL and
attaches the entity tag from the response's `Etag`/`etag` header as
`If-Match` on the mutating request; when that header is absent (or empty,
which Python treats as missing), the call fails with the local
`IBMCError` and the mutating request is never sent (the trace gains only
the GET), for every attempt budget. -/
theorem claimC4_etag_precondition :
    (∀ (attempts : Nat) (m url : String) (st : ConnState) (rGet rOk : Response)
        (e : String) (rest : List Outcome),
      (strLower m = "patch" ∨ strLower m = "put") →
      st.script = .resp rGet :: .resp rOk :: rest →
      rGet.status < 400 → etagOf rGet.headers = some e → e ≠ "" →
      rOk.status < 400 →
      make_req attempts m url st =
        (.ok rOk,
         { st with script := rest,
                   trace := st.trace ++ [⟨"GET", url, st.token, none⟩,
                     ⟨m, url, st.token, some e⟩] })) ∧
    (∀ (attempts : Nat) (m url : String) (st : ConnState) (rGet : Response)
        (rest : List Outcome),
      (strLower m = "patch" ∨ strLower m = "put") →
      st.script = .resp rGet :: rest → rGet.status < 400 →
      (etagOf rGet.headers = none ∨ etagOf rGet.headers = some "") →
      make_req attempts m url st =
        (.error (.ibmcError ("Can not get resource[" ++ url ++ "] etag")),
         { st with script := rest, trace := st.trace ++ [⟨"GET", url, st.token, none⟩] })) := by
  constructor
  · intro attempts m url st rGet rOk e rest hmut hs hg he hne hok
    have hbody : _make_req attempts m url st =
        (.ok rOk,
         { st with script := rest,
                   trace := st.trace ++ [⟨"GET", url, st.token, none⟩,
                     ⟨m, url, st.token, some e⟩] }) := by
      unfold _make_req
      rw [if_pos hmut, _get_resource_etag_of_ok hs hg he hne]
      show classifyHttpError m url (sendRaw m url (some e)
        { st with script := Outcome.resp rOk :: rest,
                  trace := st.trace ++ [⟨"GET", url, st.token, none⟩] }) = _
      rw [send_classified_of_ok (some e) rfl hok]
      simp
    unfold make_req
    exact retryCall_of_ok (auth401Wrap_of_ok hbody) attempts
  · intro attempts m url st rGet rest hmut hs hg he
    have hbody : _make_req attempts m url st =
        (.error (.ibmcError ("Can not get resource[" ++ url ++ "] etag")),
         { st with script := rest, trace := st.trace ++ [⟨"GET", url, st.token, none⟩] }) := by
      unfold _make_req
      rw [if_pos hmut, _get_resource_etag_of_missing hs hg he]
    unfold make_req
    exact retryCall_of_fatal (auth401Wrap_of_ibmcError hbody) rfl attempts

/-- Witness for C4: a PUT with an etag present sends GET then PUT with
`If-Match`; a PATCH whose GET reply has no etag header fails locally with
only the GET on the wire. -/
theorem claimC4_witness :
    make_req 5 "PUT" "https://bmc/sys"
        ⟨[.resp ⟨200, "", [("Etag", "W-5")], .null⟩, .resp ⟨204, "", [], .null⟩], 0, 0, []⟩ =
      (.ok ⟨204, "", [], .null⟩,
       ⟨[], 0, 0, [⟨"GET", "https://bmc/sys", 0, none⟩,
         ⟨"PUT", "https://bmc/sys", 0, some "W-5"⟩]⟩) ∧
    make_req 5 "PATCH" "https://bmc/sys"
        ⟨[.resp ⟨200, "", [("Server", "x")], .null⟩, .resp ⟨204, "", [], .null⟩], 0, 0, []⟩ =
      (.error (.ibmcError "Can not get resource[https://bmc/sys] etag"),
       ⟨[.resp ⟨204, "", [], .null⟩], 0, 0, [⟨"GET", "https://bmc/sys", 0, none⟩]⟩) := by
  constructor
  · exact claimC4_etag_precondition.1 5 "PUT" "https://bmc/sys" _
      ⟨200, "", [("Etag", "W-5")], .null⟩ ⟨204, "", [], .null⟩ "W-5" []
      (by decide) rfl (by decide) (by decide) (by decide) (by decide)
  · exact claimC4_etag_precondition.2 5 "PATCH" "https://bmc/sys" _
      ⟨200, "", [("Server", "x")], .null⟩ [.resp ⟨204, "", [], .null⟩]
      (by decide) rfl (by decide) (Or.inl (by decide))

/-- C1 as stated is false: with attempt budget 2 and a controller that
answers 401 to every request, the outer `retrying` loop re-runs the whole
renew-and-retry body, so `Session.create()` is performed twice (once per
outer attempt), not exactly once, before the 401 surfaces. -/
theorem claimC1_counterexample :
    make_req 2 "GET" "https://bmc/r"
        ⟨[.resp ⟨401, "unauthorized", [], .null⟩, .resp ⟨401, "unauthorized", [], .null⟩,
          .resp ⟨401, "unauthorized", [], .null⟩, .resp ⟨401, "unauthorized", [], .null⟩],
         0, 0, []⟩ =
      (.error (.reqExc (some 401) "unauthorized"),
       ⟨[], 2, 2, [⟨"GET", "https://bmc/r", 0, none⟩, ⟨"GET", "https://bmc/r", 1, none⟩,
         ⟨"GET", "https://bmc/r", 1, none⟩, ⟨"GET", "https://bmc/r", 2, none⟩]⟩) := by
  rfl

/-- C1 amended: within a single pass of the retrying layer's body (the
behaviour of the whole call when the attempt budget is 1), a 401 triggers
exactly one `Session.create()` (the renew count rises by one), the
`X-Auth-Token` header is updated from the renewed session (the retried
request carries the incremented token), and the request is re-attempted
exactly once; a second consecutive 401 on that retry is not renewed within
the pass and surfaces — though with a budget N ≥ 2 the outer `retrying`
loop re-runs the body, renewing once per pass, as the counterexample
shows. -/
theorem claimC1_amended (m url : String)
    (hm : ¬(strLower m = "patch" ∨ strLower m = "put")) :
    ∀ (st : ConnState) (r1 r2 : Response) (rest : List Outcome),
      st.script = .resp r1 :: .resp r2 :: rest → r1.status = 401 →
      ((r2.status < 400 →
        make_req 1 m url st =
          (.ok r2,
           { st with script := rest, token := st.token + 1, renews := st.renews + 1,
                     trace := st.trace ++ [⟨m, url, st.token, none⟩,
                       ⟨m, url, st.token + 1, none⟩] })) ∧
       (r2.status = 401 →
        make_req 1 m url st =
          (.error (.reqExc (some 401) r2.text),
           { st with script := rest, token := st.token + 1, renews := st.renews + 1,
                     trace := st.trace ++ [⟨m, url, st.token, none⟩,
                       ⟨m, url, st.token + 1, none⟩] }))) := by
  intro st r1 r2 rest hs h1
  have hstep : make_req 1 m url st =
      make_req_body_plain m url
        (renew_ibmc_session
          { st with script := Outcome.resp r2 :: rest,
                    trace := st.trace ++ [⟨m, url, st.token, none⟩] }) := by
    rw [make_req_eq_plain hm]
    unfold make_req_plain
    rw [show retryCall (auth401Wrap renew_ibmc_session (make_req_body_plain m url)) 1 st =
        auth401Wrap renew_ibmc_session (make_req_body_plain m url) st from by
      simp [retryCall]]
    rw [auth401Wrap_of_401 (make_req_body_plain_of_401 hs h1)]
  constructor
  · intro h2
    rw [hstep, make_req_body_plain_of_ok rfl h2]
    simp [renew_ibmc_session, List.append_assoc]
  · intro h2
    rw [hstep, make_req_body_plain_of_401 rfl h2]
    simp [renew_ibmc_session, List.append_assoc]

/-- Witness for the amended C1: with budget 1, a 401 followed by a success
returns the response with exactly one renewal and the updated token on
the retried request; a 401 followed by a second 401 surfaces it after
exactly one renewal. -/
theorem claimC1_witness :
    make_req 1 "GET" "https://bmc/r"
        ⟨[.resp ⟨401, "expired", [], .null⟩, .resp ⟨200, "ok", [], .null⟩], 0, 0, []⟩ =
      (.ok ⟨200, "ok", [], .null⟩,
       ⟨[], 1, 1, [⟨"GET", "https://bmc/r", 0, none⟩, ⟨"GET", "https://bmc/r", 1, none⟩]⟩) ∧
    make_req 1 "GET" "https://bmc/r"
        ⟨[.resp ⟨401, "expired", [], .null⟩, .resp ⟨401, "expired again", [], .null⟩], 0, 0, []⟩ =
      (.error (.reqExc (some 401) "expired again"),
       ⟨[], 1, 1, [⟨"GET", "https://bmc/r", 0, none⟩, ⟨"GET", "https://bmc/r", 1, none⟩]⟩) := by
  constructor
  · exact (claimC1_amended "GET" "https://bmc/r" (by decide) _
      ⟨401, "expired", [], .null⟩ ⟨200, "ok", [], .null⟩ [] rfl (by decide)).1 (by decide)
  · exact (claimC1_amended "GET" "https://bmc/r" (by decide) _
      ⟨401, "expired", [], .null⟩ ⟨401, "expired again", [], .null⟩ [] rfl (by decide)).2 (by decide)

/-- C6 as stated is false: the handshake requests of
`IBMCSession.create` are issued through the retrying `make_req`, so a
network-class failure of the credentials POST is retried up to the attempt
budget. With budget 2 and a twice-failing POST, the wire trace shows two
POST attempts before the error reaches the caller of `create()`. -/
theorem claimC6_counterexample :
    IBMCSession_create 2 "https://bmc/redfish/v1/SessionService" "user" "pass"
        ⟨[.netErr "conn aborted", .netErr "conn aborted 2"], 0, 0, []⟩ =
      (.error (.reqExc none "conn aborted 2"),
       ⟨[], 0, 0,
        [⟨"POST", "https://bmc/redfish/v1/SessionService/Sessions", 0, none⟩,
         ⟨"POST", "https://bmc/redfish/v1/SessionService/Sessions", 0, none⟩]⟩) := by
  rfl

/-- C6 amended: `create()` adds no retry of its own — an error from the
handshake propagates to its caller exactly as `make_req` produces it —
but the handshake requests go through the same retrying request layer:
with budget `N`, `N` consecutive network-class failures of the POST yield
exactly `N` wire attempts before the last error propagates, while a
non-retryable server error (status ≥ 500) propagates after a single
attempt for every budget. -/
theorem claimC6_amended :
    (∀ (texts : List String) (t : String) (rest : List Outcome)
        (url u p : String) (st : ConnState),
      st.script = texts.map Outcome.netErr ++ [Outcome.netErr t] ++ rest →
      IBMCSession_create (texts.length + 1) url u p st =
        (.error (.reqExc none t),
         { st with script := rest,
                   trace := st.trace ++ List.replicate (texts.length + 1)
                     ⟨"POST", url ++ "/Sessions", st.token, none⟩ })) ∧
    (∀ (attempts : Nat) (url u p : String) (st : ConnState) (r : Response)
        (rest : List Outcome),
      st.script = .resp r :: rest → 500 ≤ r.status → r.status < 600 →
      IBMCSession_create attempts url u p st =
        (.error (.ibmcError ("IBMC server error: method: [POST], url: ["
           ++ (url ++ "/Sessions") ++ "], " ++ r.text)),
         { st with script := rest,
                   trace := st.trace ++ [⟨"POST", url ++ "/Sessions", st.token, none⟩] })) := by
  constructor
  · intro texts t rest url u p st hs
    unfold IBMCSession_create
    rw [make_req_plain_netErr_run "POST" (url ++ "/Sessions") texts t rest st
      (by simpa using hs)]
  · intro attempts url u p st r rest hs h5 h6
    unfold IBMCSession_create
    rw [make_req_plain_of_500_head hs h5 h6]
    rfl

/-- Witness for the amended C6: budget 3, three connection failures, three
POST attempts; and a 500 on the POST propagating after one attempt with
budget 9. -/
theorem claimC6_witness :
    IBMCSession_create 3 "https://bmc/ss" "u" "p"
        ⟨[.netErr "x", .netErr "y", .netErr "z"], 0, 0, []⟩ =
      (.error (.reqExc none "z"),
       ⟨[], 0, 0, List.replicate 3 ⟨"POST", "https://bmc/ss/Sessions", 0, none⟩⟩) ∧
    IBMCSession_create 9 "https://bmc/ss" "u" "p"
        ⟨[.resp ⟨502, "bad gateway", [], .null⟩], 0, 0, []⟩ =
      (.error (.ibmcError "IBMC server error: method: [POST], url: [https://bmc/ss/Sessions], bad gateway"),
       ⟨[], 0, 0, [⟨"POST", "https://bmc/ss/Sessions", 0, none⟩]⟩) := by
  constructor
  · exact claimC6_amended.1 ["x", "y"] "z" [] "https://bmc/ss" "u" "p" _ rfl
  · exact claimC6_amended.2 9 "https://bmc/ss" "u" "p" _ ⟨502, "bad gateway", [], .null⟩ []
      rfl (by decide) (by decide)


/-! ### Session cache lemmas -/

theorem enter_absent {k conn : Nat} {d : List (Nat × Nat)}
    (hf : d.find? (fun p => p.1 = k) = none) :
    (SessionCache_enter k conn d).2 =
      (if MAX_SESSIONS ≤ d.length then d.drop 1 else d) ++ [(k, conn)] := by
  simp [SessionCache_enter, hf, _expire_oldest_session]

theorem acquireAll_length_le : ∀ (ks : List Nat) (d : List (Nat × Nat)),
    d.length ≤ MAX_SESSIONS → (acquireAll ks d).length ≤ MAX_SESSIONS
  | [], _, h => h
  | k :: ks, d, h => by
    show (acquireAll ks ((SessionCache_enter k k d).2)).length ≤ MAX_SESSIONS
    apply acquireAll_length_le ks
    cases hf : d.find? (fun p => p.1 = k) with
    | some p => simp [SessionCache_enter, hf]; exact h
    | none =>
      rw [enter_absent hf]
      by_cases hM : MAX_SESSIONS ≤ d.length
      · rw [if_pos hM]
        simp only [List.length_append, List.length_drop, List.length_cons, List.length_nil]
        unfold MAX_SESSIONS at h hM ⊢
        omega
      · rw [if_neg hM]
        simp only [List.length_append, List.length_cons, List.length_nil]
        unfold MAX_SESSIONS at hM ⊢
        omega

theorem acquireAll_fresh_run (n : Nat) : ∀ (base e : Nat) (d : List (Nat × Nat)),
    (∀ p ∈ d, p.1 < base) →
    (d.length + n = e + MAX_SESSIONS ∨ (e = 0 ∧ d.length + n ≤ MAX_SESSIONS)) →
    d.length ≤ MAX_SESSIONS →
    acquireAll (List.range' base n) d =
      (d ++ (List.range' base n).map (fun k => (k, k))).drop e := by
  have hMS : MAX_SESSIONS = 1000 := rfl
  induction n with
  | zero =>
    intro base e d _ he hlen
    have he0 : e = 0 := by omega
    simp [acquireAll, he0]
  | succ n ih =>
    intro base e d hfresh he hlen
    rw [List.range'_succ]
    show acquireAll (List.range' (base + 1) n) ((SessionCache_enter base base d).2) = _
    have hf : d.find? (fun p => p.1 = base) = none := by
      rw [List.find?_eq_none]
      intro p hp
      simp only [decide_eq_true_eq]
      exact Nat.ne_of_lt (hfresh p hp)
    rw [enter_absent hf]
    by_cases hM : MAX_SESSIONS <= d.length
    · have hdM : d.length = MAX_SESSIONS := Nat.le_antisymm hlen hM
      rw [if_pos hM]
      have hfresh2 : ∀ p ∈ d.drop 1 ++ [(base, base)], p.1 < base + 1 := by
        intro p hp
        rcases List.mem_append.mp hp with hp | hp
        · exact Nat.lt_succ_of_lt (hfresh p (List.mem_of_mem_drop hp))
        · simp at hp
          subst hp
          omega
      have hlen2 : (d.drop 1 ++ [(base, base)]).length ≤ MAX_SESSIONS := by
        simp only [List.length_append, List.length_drop, List.length_cons, List.length_nil]
        omega
      have he2 : (d.drop 1 ++ [(base, base)]).length + n = n + MAX_SESSIONS ∨
          (n = 0 ∧ (d.drop 1 ++ [(base, base)]).length + n ≤ MAX_SESSIONS) := by
        simp only [List.length_append, List.length_drop, List.length_cons, List.length_nil]
        omega
      rw [ih (base + 1) n (d.drop 1 ++ [(base, base)]) hfresh2 he2 hlen2]
      have hd_pos : 1 ≤ d.length := by omega
      have hidx : d.drop 1 ++ [(base, base)] ++ (List.range' (base + 1) n).map (fun k => (k, k))
          = (d ++ ((base, base) :: (List.range' (base + 1) n).map (fun k => (k, k)))).drop 1 := by
        rw [List.drop_append_of_le_length hd_pos]
        simp
      rw [hidx, List.drop_drop]
      congr 1
      omega
    · rw [if_neg hM]
      have hfresh2 : ∀ p ∈ d ++ [(base, base)], p.1 < base + 1 := by
        intro p hp
        rcases List.mem_append.mp hp with hp | hp
        · exact Nat.lt_succ_of_lt (hfresh p hp)
        · simp at hp
          subst hp
          omega
      have hlen2 : (d ++ [(base, base)]).length ≤ MAX_SESSIONS := by
        simp only [List.length_append, List.length_cons, List.length_nil]
        omega
      have he2 : (d ++ [(base, base)]).length + n = e + MAX_SESSIONS ∨
          (e = 0 ∧ (d ++ [(base, base)]).length + n ≤ MAX_SESSIONS) := by
        simp only [List.length_append, List.length_cons, List.length_nil]
        omega
      rw [ih (base + 1) e (d ++ [(base, base)]) hfresh2 he2 hlen2]
      congr 1
      simp [List.append_assoc]

/-- C5: starting from an empty cache, acquiring `MAX_SESSIONS + 1`
distinct identities in sequence leaves exactly the 2nd..1001st identities
(each still bound to its originally constructed connector) — the
first-inserted identity is evicted and no other — and for any number of
such acquisitions the population never exceeds `MAX_SESSIONS`. -/
theorem claimC5_eviction :
    acquireAll (List.range (MAX_SESSIONS + 1)) [] =
      (List.range' 1 MAX_SESSIONS).map (fun k => (k, k)) ∧
    ∀ i : Nat, (acquireAll (List.range i) []).length ≤ MAX_SESSIONS := by
  constructor
  · rw [List.range_eq_range']
    rw [acquireAll_fresh_run (MAX_SESSIONS + 1) 0 1 []
      (by simp) (by left; simp [Nat.add_comm]) (by simp)]
    rw [List.range'_succ]
    simp
  · intro i
    exact acquireAll_length_le (List.range i) [] (by simp)

theorem find?_of_key_nodup_mem {k v : Nat} : ∀ (d : List (Nat × Nat)),
    (d.map Prod.fst).Nodup → (k, v) ∈ d →
    d.find? (fun p => p.1 = k) = some (k, v)
  | [], _, hmem => absurd hmem (List.not_mem_nil _)
  | p :: ds, hnd, hmem => by
    rw [List.map_cons, List.nodup_cons] at hnd
    rcases List.mem_cons.mp hmem with hp | hp
    · subst hp
      exact List.find?_cons_of_pos _ (by simp)
    · have hk : k ∈ ds.map Prod.fst := List.mem_map.mpr ⟨(k, v), hp, rfl⟩
      have hne : ¬ p.1 = k := by
        intro hpk
        exact hnd.1 (hpk ▸ hk)
      rw [List.find?_cons_of_neg _ (by simpa using hne)]
      exact find?_of_key_nodup_mem ds hnd.2 hp

theorem find?_of_key_not_mem {k : Nat} : ∀ (d : List (Nat × Nat)),
    k ∉ d.map Prod.fst → d.find? (fun p => p.1 = k) = none := by
  intro d hk
  rw [List.find?_eq_none]
  intro p hp
  simp only [decide_eq_true_eq]
  intro hpk
  exact hk (List.mem_map.mpr ⟨p, hp, hpk⟩)

theorem find?_eraseP_key_nodup {k : Nat} : ∀ (d : List (Nat × Nat)),
    (d.map Prod.fst).Nodup →
    (d.eraseP (fun p => p.1 = k)).find? (fun p => p.1 = k) = none
  | [], _ => rfl
  | p :: ds, hnd => by
    rw [List.map_cons, List.nodup_cons] at hnd
    by_cases hp : p.1 = k
    · rw [List.eraseP_cons_of_pos (by simpa using hp)]
      exact find?_of_key_not_mem ds (hp ▸ hnd.1)
    · rw [List.eraseP_cons_of_neg (by simpa using hp)]
      rw [List.find?_cons_of_neg _ (by simpa using hp)]
      exact find?_eraseP_key_nodup ds hnd.2

/-- C7: exiting a `SessionCache` context on a `requests`-layer error
removes the identity's entry — a subsequent acquisition of the same
identity no longer finds it and returns the freshly constructed connector
(built by a new `IBMCService` login handshake) — while exiting with no
exception or with a non-`requests` error (such as `IBMCError`) leaves the
entry in place, so the next acquisition returns the cached connector. -/
theorem claimC7_release_on_error :
    ∀ (d : List (Nat × Nat)) (k conn fresh : Nat) (status : Option Nat)
      (text msg : String),
      (d.map Prod.fst).Nodup → (k, conn) ∈ d →
      ((SessionCache_exit k (some (.reqExc status text)) d).find?
          (fun p => p.1 = k) = none ∧
       (SessionCache_enter k fresh
          (SessionCache_exit k (some (.reqExc status text)) d)).1 = fresh ∧
       SessionCache_exit k none d = d ∧
       SessionCache_exit k (some (.ibmcError msg)) d = d ∧
       SessionCache_enter k fresh d = (conn, d)) := by
  intro d k conn fresh status text msg hnd hmem
  have herase : (SessionCache_exit k (some (.reqExc status text)) d).find?
      (fun p => p.1 = k) = none := by
    show (d.eraseP (fun p => p.1 = k)).find? (fun p => p.1 = k) = none
    exact find?_eraseP_key_nodup d hnd
  refine ⟨herase, ?_, rfl, rfl, ?_⟩
  · simp [SessionCache_enter, herase]
  · simp [SessionCache_enter, find?_of_key_nodup_mem d hnd hmem]

/-- Witness for C7 on a concrete cache: a network-class error evicts the
identity (the next acquisition builds connector 99), while success or a
domain error keeps the cached connector 8. -/
theorem claimC7_witness :
    (SessionCache_exit 2 (some (.reqExc none "reset")) [(1, 7), (2, 8)]).find?
        (fun p => p.1 = 2) = none ∧
    (SessionCache_enter 2 99
        (SessionCache_exit 2 (some (.reqExc none "reset")) [(1, 7), (2, 8)])).1 = 99 ∧
    SessionCache_exit 2 none [(1, 7), (2, 8)] = [(1, 7), (2, 8)] ∧
    SessionCache_exit 2 (some (.ibmcError "boom")) [(1, 7), (2, 8)] = [(1, 7), (2, 8)] ∧
    SessionCache_enter 2 99 [(1, 7), (2, 8)] = (8, [(1, 7), (2, 8)]) :=
  claimC7_release_on_error [(1, 7), (2, 8)] 2 8 99 none "reset" "boom"
    (by decide) (by decide)

/-- C8: whenever the parsed address has a falsy scheme or authority,
`parse_driver_info` re-validates the `https://`-prefixed address, so the
outcome is exactly the validation of the prefixed string; concretely,
`example.com` normalizes to `https://example.com`, `example.com:42` (whose
prefix parses as a URI scheme, leaving no authority) normalizes to
`https://example.com:42`, and `/not a url!` still lacks a host authority
after prefixing and is rejected (`InvalidParameterValue`, modelled as
`none`). -/
theorem claimC8_address_normalization :
    (∀ address : String,
      (pyFalsyComp (Uri.uriSplit address).scheme ∨
        pyFalsyComp (Uri.uriSplit address).authority) →
      parse_driver_info_address address =
        (if Uri.is_valid (Uri.uriSplit ("https://" ++ address))
         then some ("https://" ++ address) else none)) ∧
    parse_driver_info_address "example.com" = some "https://example.com" ∧
    parse_driver_info_address "example.com:42" = some "https://example.com:42" ∧
    parse_driver_info_address "/not a url!" = none := by
  refine ⟨?_, by decide, by decide, by decide⟩
  intro address h
  unfold parse_driver_info_address
  simp only [if_pos h]

/-- Witness for C8 at `example.com`: the input has no scheme, so the
general clause applies and evaluates to the normalized address. -/
theorem claimC8_witness :
    parse_driver_info_address "example.com" =
      (if Uri.is_valid (Uri.uriSplit ("https://" ++ "example.com"))
       then some ("https://" ++ "example.com") else none) :=
  claimC8_address_normalization.1 "example.com" (by decide)

/-- C9: `boot_sequence` returns the vendor field
`Oem/Huawei/BootupSequence` of the snapshot verbatim whenever it is
present and truthy (in particular any non-empty list); when the field is
absent or empty it issues one further GET for the BIOS attributes and
returns the values of the keys whose lower-cased names start with
`boottypeorder`, in sorted key order, each mapped through
`HardDiskDrive → Hdd`, `DVDROMDrive → Cd`, `PXE → Pxe` with unrecognized
codes (here `USB` and the non-string `5`) left unchanged. -/
theorem claimC9_boot_sequence :
    (∀ (attempts : Nat) (address : String) (sys : SysModel) (st : ConnState) (v : Json),
      _load_from_json sys.json ["Oem", "Huawei", "BootupSequence"] true = .ok v →
      v.falsy = false →
      IBMCSystem_boot_sequence attempts address sys st = (.ok v, st)) ∧
    IBMCSystem_boot_sequence 5 "https://bmc"
        ⟨"/id", .obj [("Oem", .obj [("Huawei", .obj [("BootupSequence", .arr [])])])],
         .null, .null, .null, .str "/bios"⟩
        ⟨[.resp ⟨200, "", [], .obj [("Attributes", .obj
           [("BootTypeOrder3", .str "HardDiskDrive"), ("BootTypeOrder0", .str "PXE"),
            ("BootTypeOrder2", .str "DVDROMDrive"), ("BootTypeOrder1", .str "USB"),
            ("BootTypeOrder4", .num 5), ("ProcessorHyperThreading", .str "PXE")])]⟩],
         0, 0, []⟩ =
      (.ok (.arr [.str "Pxe", .str "USB", .str "Cd", .str "Hdd", .num 5]),
       ⟨[], 0, 0, [⟨"GET", "https://bmc/bios", 0, none⟩]⟩) := by
  constructor
  · intro attempts address sys st v hv hfal
    unfold IBMCSystem_boot_sequence
    rw [hv]
    simp [hfal]
  · rfl

/-- Witness for C9's vendor-field clause at a concrete snapshot. -/
theorem claimC9_witness :
    IBMCSystem_boot_sequence 5 "https://bmc"
        ⟨"/id", .obj [("Oem", .obj [("Huawei", .obj
           [("BootupSequence", .arr [.str "Usb"])])])],
         .null, .null, .null, .str "/bios"⟩
        ⟨[], 0, 0, []⟩ =
      (.ok (.arr [.str "Usb"]), ⟨[], 0, 0, []⟩) :=
  claimC9_boot_sequence.1 5 "https://bmc" _ _ (.arr [.str "Usb"]) rfl rfl

/-- C10: constructing an `IBMCSystem` without an explicit identifier when
the systems-collection response carries an empty `Members` list fails with
the domain error `No system available`, and the wire trace gains exactly
the one collection GET — no per-system snapshot request follows. -/
theorem claimC10_no_system_available :
    ∀ (attempts : Nat) (address systems_path : String) (st : ConnState)
      (r : Response) (rest : List Outcome),
      st.script = .resp r :: rest → r.status < 400 →
      _load_from_json r.body ["Members"] false = .ok (.arr []) →
      IBMCSystem_init attempts none address systems_path st =
        (.error (.ibmcError "No system available"),
         { st with script := rest,
                   trace := st.trace ++ [⟨"GET", address ++ systems_path, st.token, none⟩] }) := by
  intro attempts address systems_path st r rest hs hr hm
  unfold IBMCSystem_init
  rw [if_pos (show (none : Option String).getD "" = "" from rfl),
    make_req_plain_of_ok_head hs hr]
  simp [hm, Json.falsy]

/-- Witness for C10: a collection response whose `Members` is `[]` yields
the error after the single collection GET. -/
theorem claimC10_witness :
    IBMCSystem_init 5 none "https://bmc" "/redfish/v1/Systems"
        ⟨[.resp ⟨200, "", [], .obj [("Members", .arr [])]⟩, .resp ⟨200, "", [], .null⟩],
         0, 0, []⟩ =
      (.error (.ibmcError "No system available"),
       ⟨[.resp ⟨200, "", [], .null⟩], 0, 0,
        [⟨"GET", "https://bmc/redfish/v1/Systems", 0, none⟩]⟩) :=
  claimC10_no_system_available 5 "https://bmc" "/redfish/v1/Systems" _
    ⟨200, "", [], .obj [("Members", .arr [])]⟩ [.resp ⟨200, "", [], .null⟩]
    rfl (by decide) rfl
